import Mathlib

/-!
Verification of the quill release/changelog tool against its specification.

The definitions below are a shallow embedding of the TypeScript sources:

* `src/src/types/index.ts` — data model (`GitTag`, `GitCommit`,
  `ChangelogHistoryEntry`, `ChangelogHistory`, `VersionChange`,
  `ModelConfig`, `QuillConfig`, `MAX_HISTORY_ENTRIES`);
* `src/src/utils/version.ts` — `stripVersionPrefix`, `detectTagPrefix`,
  `isValidVersion` (the semver regular expression is embedded as the
  executable matcher `semverTest`);
* `src/src/services/config.ts` — `addHistoryEntry`, `getLastChangelogRef`
  (typed level), and `getHistoryDyn` / `getLastChangelogRefDyn` /
  `addHistoryEntryDyn` / `getConfigDyn` (dynamic level: the JavaScript
  semantics of `JSON.parse` results flowing through untyped property
  accesses, needed because the source casts parsed JSON without
  validation);
* `src/src/services/git.ts` — `detectVersionChange` (the two `git show`
  reads are inputs; the `JSON.parse(content).version || null` extraction
  is an oracle parameter `parse`);
* `src/src/cli/commands/changelog.ts` — `changelogCommandRun`,
  `generateAndSaveChangelogRun` as write-event traces;
* `src/src/cli/commands/config.ts` — `parseModelString`, `updateModels`,
  `configCommandRun`;
* the release command — `determineFromRef`, `handleChangelogVersion`;
* `src/src/index.ts` — `mainExitCode`.

External effects (file reads, git queries, AI calls, interactive answers)
appear as explicit inputs; writes appear as returned values or event lists;
a thrown JavaScript exception is `Except.error`.
-/

/-- From src/src/types/index.ts: a git tag has a name and a resolved hash
(possibly empty when resolution failed). -/
structure GitTag where
  name : String
  hash : String
deriving Repr, DecidableEq

/-- From src/src/types/index.ts: one changelog-history entry. -/
structure ChangelogHistoryEntry where
  timestamp : String
  fromRef : String
  toRef : String
  toCommitHash : String
  commitsIncluded : Nat
deriving Repr, DecidableEq

/-- From src/src/types/index.ts: the persisted history structure. -/
structure ChangelogHistory where
  entries : List ChangelogHistoryEntry
deriving Repr, DecidableEq

/-- From src/src/types/index.ts: `MAX_HISTORY_ENTRIES = 50`. -/
def MAX_HISTORY_ENTRIES : Nat := 50

/-- From src/src/types/index.ts: the result of version detection. -/
structure VersionChange where
  oldVersion : Option String
  newVersion : Option String
  changed : Bool
deriving Repr, DecidableEq

/-- JavaScript `s.startsWith("v")`: true exactly when the first character is
`v`. -/
def startsWithV (s : String) : Bool :=
  match s.data with
  | 'v' :: _ => true
  | _ => false

/-- From src/src/utils/version.ts `stripVersionPrefix`: drop a leading `v`
when present (`version.slice(1)` on a string starting with `v` drops that
first character). -/
def stripVersionPrefix (version : String) : String :=
  match version.data with
  | 'v' :: rest => String.mk rest
  | _ => version

/-- From src/src/utils/version.ts `detectTagPrefix` (the `getTags()` call is
the input list): `"v"` when no tags exist, otherwise `"v"` iff the tags
starting with `v` are at least as many as the others. -/
def detectTagPrefix (tags : List GitTag) : String :=
  if tags.length = 0 then "v"
  else
    let withV := (tags.filter (fun t => startsWithV t.name)).length
    let withoutV := (tags.filter (fun t => !startsWithV t.name)).length
    if withV ≥ withoutV then "v" else ""

/-- JavaScript `\w` character class (no unicode flag): ASCII letters, digits
and underscore. -/
def isWordChar (c : Char) : Bool :=
  ('a' ≤ c && c ≤ 'z') || ('A' ≤ c && c ≤ 'Z') || ('0' ≤ c && c ≤ '9') || c = '_'

/-- The character class `[\w.]` of the semver pattern. -/
def isWordDot (c : Char) : Bool :=
  isWordChar c || c = '.'

/-- JavaScript `\d` (no unicode flag): the ASCII digits. -/
def isDigitChar (c : Char) : Bool :=
  '0' ≤ c && c ≤ '9'

/-- Consume `\d+` at the front: `none` when no digit is present, otherwise
the rest after the maximal digit run.  The pattern is deterministic here
because every character that may follow a digit run in the semver pattern
(`.`, `-`, `+`, end) is not a digit. -/
def matchNum (cs : List Char) : Option (List Char) :=
  if (cs.takeWhile isDigitChar).isEmpty then none else some (cs.dropWhile isDigitChar)

/-- The suffix matcher for `(\+[\w.]+)?$`. -/
def matchBuild (cs : List Char) : Bool :=
  match cs with
  | [] => true
  | '+' :: rest => !(rest.takeWhile isWordDot).isEmpty && (rest.dropWhile isWordDot).isEmpty
  | _ => false

/-- The suffix matcher for `(-[\w.]+)?(\+[\w.]+)?$`.  `[\w.]` contains
neither `-` nor `+`, so the greedy runs are the only possible ones. -/
def matchPre (cs : List Char) : Bool :=
  match cs with
  | '-' :: rest =>
    !(rest.takeWhile isWordDot).isEmpty && matchBuild (rest.dropWhile isWordDot)
  | _ => matchBuild cs

/-- The anchored test of the regular expression
`^\d+\.\d+\.\d+(-[\w.]+)?(\+[\w.]+)?$` from src/src/utils/version.ts
(`semverPattern.test`), as an executable matcher. -/
def semverTest (s : String) : Bool :=
  match matchNum s.data with
  | none => false
  | some r1 =>
    match r1 with
    | '.' :: r2 =>
      match matchNum r2 with
      | none => false
      | some r3 =>
        match r3 with
        | '.' :: r4 =>
          match matchNum r4 with
          | none => false
          | some r5 => matchPre r5
        | _ => false
    | _ => false

/-- From src/src/utils/version.ts `isValidVersion`: strip a leading `v`,
then test the semver pattern. -/
def isValidVersion (version : String) : Bool :=
  semverTest (stripVersionPrefix version)

/-- From src/src/services/config.ts `addHistoryEntry` (the loaded history is
the input, the written history the output): `unshift` the entry, then when
the length exceeds `MAX_HISTORY_ENTRIES` keep only `slice(0, 50)`. -/
def addHistoryEntry (history : ChangelogHistory) (entry : ChangelogHistoryEntry) :
    ChangelogHistory :=
  let entries := entry :: history.entries
  { entries :=
      if entries.length > MAX_HISTORY_ENTRIES then entries.take MAX_HISTORY_ENTRIES
      else entries }

/-- From src/src/services/config.ts `getLastChangelogRef` on a loaded
history: `null` when empty, otherwise `entries[0].toCommitHash`. -/
def getLastChangelogRef (history : ChangelogHistory) : Option String :=
  match history.entries with
  | [] => none
  | e :: _ => some e.toCommitHash

/-- From src/src/services/git.ts `detectVersionChange`: the extraction
`JSON.parse(content).version || null` (null on parse failure, on a missing
field, or on an empty-string field) is abstracted by the oracle `parse`;
an absent file (`getFileAtRef` returned null) extracts to `none`. -/
def extractVersion (parse : String → Option String) : Option String → Option String
  | none => none
  | some content => parse content

/-- From src/src/services/git.ts `detectVersionChange` lines 310-343: read
the manifest at each ref (the two contents are the inputs), extract each
version, and report `changed` exactly when `oldVersion !== newVersion` and
`newVersion !== null`. -/
def detectVersionChange (parse : String → Option String)
    (oldContent newContent : Option String) : VersionChange :=
  let oldVersion := extractVersion parse oldContent
  let newVersion := extractVersion parse newContent
  { oldVersion := oldVersion
    newVersion := newVersion
    changed := decide (oldVersion ≠ newVersion) && decide (newVersion ≠ none) }

/-- JavaScript truthiness of a nullable string: `null`, `undefined` and
`""` are falsy. -/
def jsTruthyStr : Option String → Bool
  | none => false
  | some s => !(s = "")

/-- From the release command (src/unnamed/part_001 `handleChangelog` lines
118-134): `let fromRef = options.from; if (!fromRef) ...` — a falsy option
(absent or the empty string) falls through to the latest tag's name, else
the first commit, else a thrown `Error` (modelled as `Except.error`;
`releaseCommand` does not catch it, so it aborts the release and reaches
the top-level handler in src/src/index.ts). -/
def determineFromRef (optFrom : Option String) (latestTag : Option GitTag)
    (firstCommit : Option String) : Except String String :=
  if jsTruthyStr optFrom then .ok (optFrom.getD "")
  else
    match latestTag with
    | some t => .ok t.name
    | none =>
      match firstCommit with
      | some c => .ok c
      | none => .error "Could not determine starting reference."

/-- From the release command (src/unnamed/part_001 `handleChangelog` lines
138-157): the version is the explicit option when truthy (`if (!version)`,
so an empty-string option is treated as absent); else, when
`versionChange.changed && versionChange.newVersion` is truthy, the detected
new version; else the interactively entered string, accepted silently when
`isValidVersion` holds, otherwise accepted with a warning only when the
user confirms, and a thrown "Release cancelled." otherwise.  The returned
Bool records whether the soft validation warning was printed. -/
def handleChangelogVersion (optVersion : Option String) (vc : VersionChange)
    (entered : String) (confirmContinue : Bool) : Except String (String × Bool) :=
  if jsTruthyStr optVersion then .ok (optVersion.getD "", false)
  else
    if vc.changed && jsTruthyStr vc.newVersion then
      .ok (vc.newVersion.getD "", false)
    else
      if isValidVersion entered then .ok (entered, false)
      else if confirmContinue then .ok (entered, true)
      else .error "Release cancelled."

/-- From src/src/index.ts `main`: a rejected command promise is caught,
displayed, and the process exits 1; otherwise it exits 0. -/
def mainExitCode (result : Except String Unit) : Nat :=
  match result with
  | .ok _ => 0
  | .error _ => 1

/-- A JavaScript value as produced by `JSON.parse` (plus `undefined`, which
property access can yield).  Numbers are integers here; the persisted
documents under study never need fractional values. -/
inductive JSValue where
  | null
  | undefined
  | bool (b : Bool)
  | num (n : Int)
  | str (s : String)
  | arr (elems : List JSValue)
  | obj (fields : List (String × JSValue))
deriving Repr

/-- The state of a persisted JSON file: absent, or present with the outcome
of `JSON.parse` on its bytes (`Except.error` models a parse exception; any
byte content maps to exactly one such outcome). -/
inductive FileState where
  | absent
  | content (parsed : Except Unit JSValue)

/-- The own enumerable string-keyed properties a value contributes to an
object spread `{ ...v }`: an object's fields, an array's or string's
indexed elements, nothing for primitives. -/
def ownEnumerable : JSValue → List (String × JSValue)
  | .obj fields => fields
  | .arr elems => elems.enum.map (fun p => (toString p.1, p.2))
  | .str s => s.data.enum.map (fun p => (toString p.1, .str (String.mk [p.2])))
  | _ => []

/-- The object spread `{ ...a, ...b }` restricted to lookup behaviour: a
key found in `b` wins, a key only in `a` keeps `a`'s value. -/
def spreadPair (a b : List (String × JSValue)) : List (String × JSValue) :=
  a.filter (fun p => (b.lookup p.1).isNone) ++ b

/-- The built-in `DEFAULT_CONFIG` of src/src/types/index.ts as a JavaScript
object. -/
def DEFAULT_CONFIG_JS : List (String × JSValue) :=
  [("models", .obj
    [("commit", .obj [("provider", .str "openai"), ("model", .str "gpt-5.1-codex-mini")]),
     ("changelog", .obj [("provider", .str "openai"), ("model", .str "gpt-5.1-codex-mini")])])]

/-- From src/src/services/config.ts `getConfig` lines 76-92, at the dynamic
level: the defaults when the file is absent (after writing them) or when
`JSON.parse` throws, otherwise the single top-level spread
`{ ...DEFAULT_CONFIG, ...config }`. -/
def getConfigDyn : FileState → JSValue
  | .absent => .obj DEFAULT_CONFIG_JS
  | .content (.error _) => .obj DEFAULT_CONFIG_JS
  | .content (.ok v) => .obj (spreadPair DEFAULT_CONFIG_JS (ownEnumerable v))

/-- Field lookup on an object value, for stating properties of
`getConfigDyn`. -/
def objLookup : JSValue → String → Option JSValue
  | .obj fields, k => fields.lookup k
  | _, _ => none

/-- From src/src/types/index.ts: a provider/model pair. -/
structure ModelConfig where
  provider : String
  model : String
deriving Repr, DecidableEq

/-- From src/src/types/index.ts: the two configured models. -/
structure QuillModels where
  commit : ModelConfig
  changelog : ModelConfig
deriving Repr, DecidableEq

/-- From src/src/types/index.ts: the configuration document. -/
structure QuillConfig where
  models : QuillModels
deriving Repr, DecidableEq

/-- From src/src/types/index.ts `DEFAULT_CONFIG`. -/
def DEFAULT_CONFIG : QuillConfig :=
  { models :=
    { commit := { provider := "openai", model := "gpt-5.1-codex-mini" }
      changelog := { provider := "openai", model := "gpt-5.1-codex-mini" } } }

/-- JavaScript `s.split("/")` at the character level: the maximal `/`-free
segments, with empty segments kept (`"".split("/") = [""]`,
`"/".split("/") = ["", ""]`). -/
def splitSlash : List Char → List (List Char)
  | [] => [[]]
  | '/' :: rest => [] :: splitSlash rest
  | c :: rest =>
    match splitSlash rest with
    | [] => [[c]]
    | g :: gs => (c :: g) :: gs

/-- From src/src/cli/commands/config.ts `parseModelString` lines 81-94:
split on `/`; fewer than two parts is `null`; otherwise the first part is
the provider and the rest re-joined with `/` is the model. -/
def parseModelString (modelString : String) : Option ModelConfig :=
  match (splitSlash modelString.data).map String.mk with
  | provider :: m :: rest =>
    some { provider := provider, model := String.intercalate "/" (m :: rest) }
  | _ => none

/-- The observable outcome of the config command: whether an "Invalid model
format" error message was printed, and the configuration passed to
`saveConfig` when the save line was reached. -/
structure ConfigUpdateResult where
  printedInvalid : Bool
  saved : Option QuillConfig
deriving Repr, DecidableEq

/-- The second half of `updateModels` (the `options.changelogModel` block
and the final `saveConfig`), lines 114-130 of
src/src/cli/commands/config.ts. -/
def updateChangelogModelStep (config : QuillConfig) (changelogModel : Option String) :
    ConfigUpdateResult :=
  match changelogModel with
  | some s =>
    if s = "" then { printedInvalid := false, saved := some config }
    else
      match parseModelString s with
      | none => { printedInvalid := true, saved := none }
      | some mc =>
        { printedInvalid := false
          saved := some { config with models := { config.models with changelog := mc } } }
  | none => { printedInvalid := false, saved := some config }

/-- From src/src/cli/commands/config.ts `updateModels` lines 96-131: an
unparseable `--commit-model` prints the error and returns before touching
the changelog model or saving; the function never throws. -/
def updateModels (config : QuillConfig) (commitModel changelogModel : Option String) :
    ConfigUpdateResult :=
  match commitModel with
  | some s =>
    if s = "" then updateChangelogModelStep config changelogModel
    else
      match parseModelString s with
      | none => { printedInvalid := true, saved := none }
      | some mc =>
        updateChangelogModelStep
          { config with models := { config.models with commit := mc } } changelogModel
  | none => updateChangelogModelStep config changelogModel

/-- From src/src/cli/commands/config.ts `configCommand` lines 15-32:
dispatch on the truthiness of the options.  The `--list-models` path
awaits `showAvailableModels`, whose `listProviders` call can throw a
`QuillError` (generation backend unreachable); that promise's outcome is
the input `listOutcome` and a rejection propagates.  The update and
show-current-config paths never throw, hence `Except.ok`. -/
def configCommandRun (listModels : Bool) (listOutcome : Except String Unit)
    (commitModel changelogModel : Option String) (persisted : QuillConfig) :
    Except String ConfigUpdateResult :=
  if listModels then listOutcome.map (fun _ => { printedInvalid := false, saved := none })
  else if jsTruthyStr commitModel || jsTruthyStr changelogModel then
    .ok (updateModels persisted commitModel changelogModel)
  else .ok { printedInvalid := false, saved := none }

/-- The process exit code of a config invocation, through `main` of
src/src/index.ts. -/
def configCommandExitCode (listModels : Bool) (listOutcome : Except String Unit)
    (commitModel changelogModel : Option String) (persisted : QuillConfig) : Nat :=
  mainExitCode ((configCommandRun listModels listOutcome commitModel changelogModel
    persisted).map (fun _ => ()))

example : semverTest "1.0.0" = true := by decide
example : semverTest "v1.0.0" = false := by decide
example : semverTest "1.2.3-rc.1+build.5" = true := by decide
example : semverTest "1.2.3-" = false := by decide
example : semverTest "1.2.3.4" = false := by decide
example : isValidVersion "v1.0.0" = true := by decide
example : stripVersionPrefix "v1.0.0" = "1.0.0" := by decide
example : detectTagPrefix [] = "v" := by decide
example : parseModelString "a/b/c" = some ⟨"a", "b/c"⟩ := by decide
example : parseModelString "gpt4" = none := by decide

theorem addHistoryEntry_entries_eq (h : ChangelogHistory) (e : ChangelogHistoryEntry) :
    (addHistoryEntry h e).entries = (e :: h.entries).take MAX_HISTORY_ENTRIES := by
  show (if (e :: h.entries).length > MAX_HISTORY_ENTRIES
          then (e :: h.entries).take MAX_HISTORY_ENTRIES
          else e :: h.entries) = _
  split
  · rfl
  · next hle => exact (List.take_of_length_le (by omega)).symm

theorem addHistoryEntry_length_le (h : ChangelogHistory) (e : ChangelogHistoryEntry) :
    (addHistoryEntry h e).entries.length ≤ MAX_HISTORY_ENTRIES := by
  rw [addHistoryEntry_entries_eq, List.length_take]
  omega

theorem addHistoryEntry_head (h : ChangelogHistory) (e : ChangelogHistoryEntry) :
    (addHistoryEntry h e).entries.head? = some e := by
  rw [addHistoryEntry_entries_eq,
    show MAX_HISTORY_ENTRIES = 49 + 1 from rfl, List.take_succ_cons]
  rfl

theorem addHistoryEntry_lastRef (h : ChangelogHistory) (e : ChangelogHistoryEntry) :
    getLastChangelogRef (addHistoryEntry h e) = some e.toCommitHash := by
  unfold getLastChangelogRef
  rw [addHistoryEntry_entries_eq,
    show MAX_HISTORY_ENTRIES = 49 + 1 from rfl, List.take_succ_cons]

/-- C1: every append prepends the new entry at the front and truncates to
the 50-entry cap by dropping from the oldest end, so the stored list never
exceeds 50 entries, and immediately after an append (also after any longer
sequence of appends) `getLastChangelogRef` is exactly the `toCommitHash` of
the entry just appended. -/
theorem history_append_bounded_newest_first :
    (∀ (h : ChangelogHistory) (e : ChangelogHistoryEntry),
      (addHistoryEntry h e).entries = (e :: h.entries).take MAX_HISTORY_ENTRIES ∧
      (addHistoryEntry h e).entries.head? = some e ∧
      (addHistoryEntry h e).entries.length ≤ MAX_HISTORY_ENTRIES ∧
      getLastChangelogRef (addHistoryEntry h e) = some e.toCommitHash) ∧
    (∀ (h : ChangelogHistory) (es : List ChangelogHistoryEntry) (e : ChangelogHistoryEntry),
      ((es ++ [e]).foldl addHistoryEntry h).entries.length ≤ MAX_HISTORY_ENTRIES ∧
      getLastChangelogRef ((es ++ [e]).foldl addHistoryEntry h) = some e.toCommitHash) := by
  refine ⟨fun h e => ⟨addHistoryEntry_entries_eq h e, addHistoryEntry_head h e,
    addHistoryEntry_length_le h e, addHistoryEntry_lastRef h e⟩, fun h es e => ?_⟩
  rw [List.foldl_append]
  exact ⟨addHistoryEntry_length_le _ e, addHistoryEntry_lastRef _ e⟩

/-- C2 counterexample: `detectVersionChange` strips no `v` prefix.  With a
manifest whose extracted version is `"v1.0.0"` at the old ref and
`"1.0.0"` at the new ref — identical after prefix-stripping — `changed` is
`true`, not `false` as the claim states. -/
theorem detectVersionChange_no_strip_counterexample :
    stripVersionPrefix "v1.0.0" = stripVersionPrefix "1.0.0" ∧
    (detectVersionChange (fun c => some c) (some "v1.0.0") (some "1.0.0")).changed = true ∧
    (detectVersionChange (fun c => some c) (some "v1.0.0") (some "1.0.0")).oldVersion =
      some "v1.0.0" ∧
    (detectVersionChange (fun c => some c) (some "v1.0.0") (some "1.0.0")).newVersion =
      some "1.0.0" := by
  refine ⟨by decide, by decide, rfl, rfl⟩

/-- C2 amended: `detectVersionChange` compares the two extracted version
strings exactly as read, with no prefix normalization: `changed` is true
iff they differ as raw strings and the new one is present; whenever the
extracted strings are exactly equal, `changed` is false regardless of
which reference holds which string; and the returned `oldVersion` /
`newVersion` fields preserve the extracted strings unmodified. -/
theorem detectVersionChange_exact_compare (parse : String → Option String)
    (oldContent newContent : Option String) :
    (detectVersionChange parse oldContent newContent).oldVersion =
      extractVersion parse oldContent ∧
    (detectVersionChange parse oldContent newContent).newVersion =
      extractVersion parse newContent ∧
    ((detectVersionChange parse oldContent newContent).changed = true ↔
      extractVersion parse oldContent ≠ extractVersion parse newContent ∧
      extractVersion parse newContent ≠ none) ∧
    (extractVersion parse oldContent = extractVersion parse newContent →
      (detectVersionChange parse oldContent newContent).changed = false ∧
      (detectVersionChange parse newContent oldContent).changed = false) := by
  refine ⟨rfl, rfl, ?_, ?_⟩
  · simp [detectVersionChange]
  · intro hEq
    constructor <;> simp [detectVersionChange, hEq]

theorem detectVersionChange_exact_compare_witness :
    (detectVersionChange (fun c => some c) (some "1.2.3") (some "1.2.3")).changed = false :=
  ((detectVersionChange_exact_compare (fun c => some c) (some "1.2.3")
    (some "1.2.3")).2.2.2 rfl).1

/-- C3 counterexample: `handleChangelog` tests the `from` option with
`if (!fromRef)`, so a given but empty `--from ""` is falsy and is NOT
used: with a latest tag present the step uses the tag's name instead of
the given (empty) option, contradicting "if the `from` option is given it
is used". -/
theorem release_empty_from_counterexample :
    determineFromRef (some "") (some ⟨"v1.0.0", "cafe"⟩) none = .ok "v1.0.0" ∧
    determineFromRef (some "") (some ⟨"v1.0.0", "cafe"⟩) none ≠ .ok "" := by
  refine ⟨rfl, fun h => ?_⟩
  injection h with h1
  exact absurd h1 (by decide)

/-- C3 amended: the starting reference is determined by this priority: a
given nonempty `from` option is used; a given empty `from` option is
falsy in JavaScript and treated exactly like an absent one; otherwise the
latest tag's name is used if any tag exists; otherwise the repository's
first commit if one exists; otherwise the step throws "Could not
determine starting reference.", which nothing catches before the
top-level handler, so the entire release fails with exit code 1. -/
theorem release_from_ref_priority_amended (f : String) (hf : f ≠ "") :
    (∀ (latestTag : Option GitTag) (firstCommit : Option String),
      determineFromRef (some f) latestTag firstCommit = .ok f) ∧
    (∀ (latestTag : Option GitTag) (firstCommit : Option String),
      determineFromRef (some "") latestTag firstCommit =
        determineFromRef none latestTag firstCommit) ∧
    (∀ (t : GitTag) (firstCommit : Option String),
      determineFromRef none (some t) firstCommit = .ok t.name) ∧
    (∀ c : String, determineFromRef none none (some c) = .ok c) ∧
    determineFromRef none none none = .error "Could not determine starting reference." ∧
    mainExitCode ((determineFromRef none none none).map (fun _ => ())) = 1 := by
  refine ⟨fun latestTag firstCommit => ?_, fun _ _ => rfl, fun _ _ => rfl, fun _ => rfl,
    rfl, rfl⟩
  simp [determineFromRef, jsTruthyStr, hf]

theorem release_from_ref_priority_amended_witness :
    ("v0.1.0" ≠ "") ∧ determineFromRef (some "v0.1.0") none none = .ok "v0.1.0" := by
  have h := release_from_ref_priority_amended "v0.1.0" (by decide)
  exact ⟨by decide, h.1 none none⟩

/-- C4: `detectTagPrefix` returns `"v"` on an empty tag list, `"v"` on a
tie between `v`-prefixed and other tags, `"v"` exactly when the
`v`-prefixed tags are a strict majority, and `""` exactly when they are a
strict minority. -/
theorem detectTagPrefix_majority (tags : List GitTag) :
    (tags = [] → detectTagPrefix tags = "v") ∧
    ((tags.filter (fun t => startsWithV t.name)).length =
        (tags.filter (fun t => !startsWithV t.name)).length →
      detectTagPrefix tags = "v") ∧
    ((tags.filter (fun t => startsWithV t.name)).length >
        (tags.filter (fun t => !startsWithV t.name)).length →
      detectTagPrefix tags = "v") ∧
    ((tags.filter (fun t => startsWithV t.name)).length <
        (tags.filter (fun t => !startsWithV t.name)).length →
      detectTagPrefix tags = "") := by
  have hexp : detectTagPrefix tags =
      if tags.length = 0 then "v"
      else
        if (tags.filter (fun t => startsWithV t.name)).length ≥
            (tags.filter (fun t => !startsWithV t.name)).length
        then "v" else "" := rfl
  refine ⟨?_, ?_, ?_, ?_⟩
  · intro hnil
    subst hnil
    rfl
  · intro hEq
    rw [hexp]
    by_cases h0 : tags.length = 0
    · rw [if_pos h0]
    · rw [if_neg h0, if_pos hEq.ge]
  · intro hGt
    rw [hexp]
    by_cases h0 : tags.length = 0
    · rw [if_pos h0]
    · rw [if_neg h0, if_pos hGt.le]
  · intro hLt
    have h0 : ¬tags.length = 0 := by
      intro hl
      rw [List.length_eq_zero.mp hl] at hLt
      simp at hLt
    rw [hexp, if_neg h0, if_neg (not_le.mpr hLt)]

theorem detectTagPrefix_majority_witness :
    ((([⟨"v1.0.0", "a"⟩, ⟨"1.0.0", "b"⟩, ⟨"v2.0.0", "c"⟩] : List GitTag).filter
        (fun t => startsWithV t.name)).length >
      (([⟨"v1.0.0", "a"⟩, ⟨"1.0.0", "b"⟩, ⟨"v2.0.0", "c"⟩] : List GitTag).filter
        (fun t => !startsWithV t.name)).length) ∧
    detectTagPrefix [⟨"v1.0.0", "a"⟩, ⟨"1.0.0", "b"⟩, ⟨"v2.0.0", "c"⟩] = "v" :=
  ⟨by decide,
    (detectTagPrefix_majority [⟨"v1.0.0", "a"⟩, ⟨"1.0.0", "b"⟩, ⟨"v2.0.0", "c"⟩]).2.2.1
      (by decide)⟩

/-- C5: `changed` is true iff the extracted old and new versions differ and
the new one is present; in particular an old-present/new-absent transition
(manifest deleted at the new ref, or unparseable there) always yields
`changed = false`. -/
theorem versionChange_changed_iff (parse : String → Option String)
    (oldContent newContent : Option String) :
    ((detectVersionChange parse oldContent newContent).changed = true ↔
      extractVersion parse oldContent ≠ extractVersion parse newContent ∧
      extractVersion parse newContent ≠ none) ∧
    (∀ oldC : Option String, (detectVersionChange parse oldC none).changed = false) ∧
    (∀ (oldC : Option String) (bad : String), parse bad = none →
      (detectVersionChange parse oldC (some bad)).changed = false) := by
  refine ⟨by simp [detectVersionChange], fun oldC => by simp [detectVersionChange, extractVersion],
    fun oldC bad hbad => by simp [detectVersionChange, extractVersion, hbad]⟩

theorem versionChange_changed_iff_witness :
    ((fun c => if c = "not json" then none else some c) "not json" = none) ∧
    (detectVersionChange (fun c => if c = "not json" then none else some c)
      (some "1.0.0") (some "not json")).changed = false :=
  ⟨by decide,
    (versionChange_changed_iff (fun c => if c = "not json" then none else some c)
      (some "1.0.0") (some "not json")).2.2 (some "1.0.0") "not json" (by decide)⟩

theorem semverTest_of_head_v (s : String) (rest : List Char) (hd : s.data = 'v' :: rest) :
    semverTest s = false := by
  unfold semverTest matchNum
  rw [hd, List.takeWhile_cons, show isDigitChar 'v' = false from by decide]
  simp

/-- C6 counterexample: the entered string `"v1.0.0"` does not match the raw
pattern `^\d+\.\d+\.\d+(-[\w.]+)?(\+[\w.]+)?$`, yet the release flow
accepts it silently with no validation warning (and without asking for
confirmation), because `isValidVersion` strips the leading `v` before
testing. -/
theorem manual_version_no_warn_counterexample :
    semverTest "v1.0.0" = false ∧
    isValidVersion "v1.0.0" = true ∧
    handleChangelogVersion none ⟨none, none, false⟩ "v1.0.0" false = .ok ("v1.0.0", false) :=
  ⟨by decide, by decide, rfl⟩

/-- C6 amended: at the manual version prompt the soft warning is produced
iff the entered string fails the semver shape check after a leading `v` is
stripped (equivalently: iff neither the string itself nor, when it starts
with `v`, its tail matches the raw pattern) — so `"v1.0.0"` does not warn
— and when the warning fires the user may explicitly confirm to continue
with that version, while declining throws "Release cancelled.". -/
theorem manual_version_soft_warning (vc : VersionChange) (entered : String)
    (hmanual : vc.changed = false ∨ jsTruthyStr vc.newVersion = false) :
    (∀ confirmContinue : Bool,
      handleChangelogVersion none vc entered confirmContinue =
        if isValidVersion entered then .ok (entered, false)
        else if confirmContinue then .ok (entered, true)
        else .error "Release cancelled.") ∧
    (isValidVersion entered = true ↔
      semverTest entered = true ∨
        ∃ rest, entered.data = 'v' :: rest ∧ semverTest (String.mk rest) = true) := by
  have hcond : (vc.changed && jsTruthyStr vc.newVersion) = false := by
    rcases hmanual with h | h <;> simp [h]
  refine ⟨fun confirmContinue => ?_, ?_⟩
  · unfold handleChangelogVersion
    rw [hcond]
    simp [jsTruthyStr]
  · unfold isValidVersion
    rcases hd : entered.data with _ | ⟨c, rest⟩
    · have hstrip : stripVersionPrefix entered = entered := by
        unfold stripVersionPrefix
        rw [hd]
      rw [hstrip]
      constructor
      · exact Or.inl
      · rintro (h | ⟨rest, hr, _⟩)
        · exact h
        · exact absurd hr (by simp)
    · by_cases hc : c = 'v'
      · subst hc
        have hstrip : stripVersionPrefix entered = String.mk rest := by
          unfold stripVersionPrefix
          rw [hd]
          rfl
        have hfalse : semverTest entered = false := semverTest_of_head_v entered rest hd
        rw [hstrip]
        constructor
        · intro h
          exact Or.inr ⟨rest, rfl, h⟩
        · rintro (h | ⟨rest', hr, h⟩)
          · rw [hfalse] at h
            exact absurd h (by simp)
          · injection hr with _ h2
            rw [h2]
            exact h
      · have hstrip : stripVersionPrefix entered = entered := by
          unfold stripVersionPrefix
          rw [hd]
          split
          · next r heq =>
            injection heq with h1 _
            exact absurd h1 hc
          · rfl
        rw [hstrip]
        constructor
        · exact Or.inl
        · rintro (h | ⟨rest', hr, _⟩)
          · exact h
          · injection hr with h1 _
            exact absurd h1 hc

theorem manual_version_soft_warning_witness :
    ((false : Bool) = false ∨ jsTruthyStr none = false) ∧
    handleChangelogVersion none ⟨none, none, false⟩ "abc" true = .ok ("abc", true) := by
  have h := manual_version_soft_warning ⟨none, none, false⟩ "abc" (Or.inl rfl)
  refine ⟨Or.inl rfl, ?_⟩
  rw [h.1 true]
  rfl

/-- C9 counterexample: on a malformed model-selection string (no `/`), the
config command prints the "Invalid model format" message, saves nothing,
returns normally, and the process exits 0 — not 1 as the claim states
(`updateModels` returns instead of throwing, so `main`'s catch block never
runs). -/
theorem config_malformed_model_exit_counterexample :
    parseModelString "gpt4" = none ∧
    configCommandRun false (.ok ()) (some "gpt4") none DEFAULT_CONFIG =
      .ok { printedInvalid := true, saved := none } ∧
    configCommandExitCode false (.ok ()) (some "gpt4") none DEFAULT_CONFIG = 0 :=
  ⟨rfl, rfl, rfl⟩

/-- C9 amended: every config invocation given a malformed model-selection
string completes normally and the process exits 0, never 1.  When the
malformed string is nonempty the command prints an "Invalid model format"
error and returns without saving any configuration — as `--commit-model`
(for any `--changelog-model` value, which is then never processed), or as
`--changelog-model` with the commit option absent or valid; when the
malformed string is empty it is falsy, so with both options falsy the
command merely shows the current configuration, saving nothing and
printing no format error. -/
theorem config_malformed_model_soft_error (listOutcome : Except String Unit)
    (persisted : QuillConfig) (s : String) (hmal : parseModelString s = none) :
    (s ≠ "" → ∀ changelogModel : Option String,
      configCommandRun false listOutcome (some s) changelogModel persisted =
        .ok { printedInvalid := true, saved := none } ∧
      configCommandExitCode false listOutcome (some s) changelogModel persisted = 0) ∧
    (s ≠ "" →
      configCommandRun false listOutcome none (some s) persisted =
        .ok { printedInvalid := true, saved := none } ∧
      configCommandExitCode false listOutcome none (some s) persisted = 0) ∧
    (s ≠ "" → ∀ (c : String) (mc : ModelConfig), parseModelString c = some mc →
      configCommandRun false listOutcome (some c) (some s) persisted =
        .ok { printedInvalid := true, saved := none } ∧
      configCommandExitCode false listOutcome (some c) (some s) persisted = 0) ∧
    (∀ commitModel changelogModel : Option String,
      jsTruthyStr commitModel = false → jsTruthyStr changelogModel = false →
      configCommandRun false listOutcome commitModel changelogModel persisted =
        .ok { printedInvalid := false, saved := none } ∧
      configCommandExitCode false listOutcome commitModel changelogModel persisted = 0) := by
  refine ⟨?_, ?_, ?_, ?_⟩
  · intro hs changelogModel
    have hrun : configCommandRun false listOutcome (some s) changelogModel persisted =
        .ok { printedInvalid := true, saved := none } := by
      simp [configCommandRun, jsTruthyStr, hs, updateModels, hmal]
    refine ⟨hrun, ?_⟩
    unfold configCommandExitCode
    rw [hrun]
    rfl
  · intro hs
    have hrun : configCommandRun false listOutcome none (some s) persisted =
        .ok { printedInvalid := true, saved := none } := by
      simp [configCommandRun, jsTruthyStr, hs, updateModels, updateChangelogModelStep, hmal]
    refine ⟨hrun, ?_⟩
    unfold configCommandExitCode
    rw [hrun]
    rfl
  · intro hs c mc hc
    have hcne : c ≠ "" := by
      intro hce
      rw [hce, show parseModelString "" = none from by decide] at hc
      exact Option.noConfusion hc
    have hrun : configCommandRun false listOutcome (some c) (some s) persisted =
        .ok { printedInvalid := true, saved := none } := by
      simp [configCommandRun, jsTruthyStr, hs, hcne, updateModels, hc,
        updateChangelogModelStep, hmal]
    refine ⟨hrun, ?_⟩
    unfold configCommandExitCode
    rw [hrun]
    rfl
  · intro commitModel changelogModel hcm hclm
    have hrun : configCommandRun false listOutcome commitModel changelogModel persisted =
        .ok { printedInvalid := false, saved := none } := by
      simp [configCommandRun, hcm, hclm]
    refine ⟨hrun, ?_⟩
    unfold configCommandExitCode
    rw [hrun]
    rfl

theorem config_malformed_model_soft_error_witness :
    parseModelString "claude" = none ∧ ("claude" ≠ "") ∧
    configCommandExitCode false (.ok ()) none (some "claude") DEFAULT_CONFIG = 0 := by
  have hmal : parseModelString "claude" = none := by decide
  have h := config_malformed_model_soft_error (.ok ()) DEFAULT_CONFIG "claude" hmal
  exact ⟨hmal, by decide, (h.2.1 (by decide)).2⟩

/-- C10: `getConfig` merges a parsed configuration document with the
defaults by a single top-level spread: any `models` value present in the
document replaces the default wholesale, so a document whose `models`
object carries only a `commit` entry yields a configuration whose `models`
has no `changelog` key at all instead of the built-in default. -/
theorem getConfig_shallow_merge (fs : List (String × JSValue)) (m : JSValue)
    (hm : fs.lookup "models" = some m) :
    objLookup (getConfigDyn (.content (.ok (.obj fs)))) "models" = some m ∧
    (∀ c : JSValue,
      objLookup (getConfigDyn (.content (.ok (.obj [("models", .obj [("commit", c)])]))))
        "models" = some (.obj [("commit", c)]) ∧
      objLookup (.obj [("commit", c)]) "changelog" = none) := by
  constructor
  · have hfilter : DEFAULT_CONFIG_JS.filter (fun p => (fs.lookup p.1).isNone) = [] := by
      simp [DEFAULT_CONFIG_JS, hm]
    simp [getConfigDyn, objLookup, spreadPair, ownEnumerable, hfilter, hm]
  · intro c
    exact ⟨rfl, rfl⟩

theorem getConfig_shallow_merge_witness :
    ([("models", JSValue.null)].lookup "models" = some JSValue.null) ∧
    objLookup (getConfigDyn (.content (.ok (.obj [("models", JSValue.null)])))) "models" =
      some JSValue.null := by
  have h := getConfig_shallow_merge [("models", .null)] .null rfl
  exact ⟨rfl, h.1⟩
